import Mathlib

set_option maxHeartbeats 1000000

/-!
Shallow embedding of the vwap-signal core (TypeScript sources) in Lean 4.

Numbers: JS numbers are modelled as exact rationals; timestamps as integers
(milliseconds, or epoch seconds for candle open times, as in the source).
JS boolean tests on numbers are modelled as decidable propositions; JS
truthiness of optional fields is modelled explicitly: an optional number is
truthy iff it is present and nonzero.

Components embedded:
  - signal classifier (DecisionBuyAi, signals useMemo, rev 1);
  - level calculator (cexService.fetchWeeklyVwapData), with the wall-clock
    Monday boundary passed in as a parameter;
  - data source adapter (cexService.fetchCexTickers / fetchKuCoinTickers),
    with the network modelled as an environment value: a provider field is
    none on transport error, non-2xx status or malformed body;
  - telegram alert service (telegramService.sendGoldenSignalAlert), with
    the transport modelled as an oracle from chat id to acceptance;
  - per-cycle alert dedup effect (DecisionBuyAi telegram alert effect, rev 1);
  - golden ledger reconciliation (DecisionBuyAi tracker effect, rev 2)
    together with loadTrackedGoldens / saveTrackedGoldens.
-/

/-- JS truthiness for an optional integer field: truthy iff present and nonzero. -/
def jsTruthyInt (o : Option Int) : Bool :=
  match o with
  | none => false
  | some x => decide (x ≠ 0)

/-- JS expression a or-else b for an optional number a (0 is falsy). -/
def jsOrInt (o : Option Int) (d : Int) : Int :=
  match o with
  | none => d
  | some x => if x ≠ 0 then x else d

/-- JS truthiness for an optional boolean field (undefined and false are falsy). -/
def jsTruthyBool (o : Option Bool) : Bool :=
  match o with
  | none => false
  | some b => b

/-- CexTicker (src/src/types.ts lines 104-116). -/
structure CexTicker where
  id : String
  symbol : String
  pair : String
  priceUsd : ℚ
  priceChange24h : ℚ
  priceChangePercent24h : ℚ
  high24h : ℚ
  low24h : ℚ
  volume24h : ℚ
  trades24h : Option ℚ
  exchange : String
deriving DecidableEq, Repr

/-- VwapData (src/src/types.ts lines 141-148). -/
structure VwapData where
  max : ℚ
  min : ℚ
  mid : ℚ
  slope : ℚ
  normalizedSlope : ℚ
  symbol : String
deriving DecidableEq, Repr

/-- Signal kinds of DecisionBuyAi rev 1 (src/unnamed/part_001 line 59). -/
inductive BuyType where
  | GOLDEN
  | MOMENTUM
  | SUPPORT
  | EXIT
deriving DecidableEq, Repr

/-- BuySignal (src/unnamed/part_001 lines 54-61). -/
structure BuySignal where
  ticker : CexTicker
  vwap : VwapData
  score : ℚ
  reason : String
  type : BuyType
  activeSince : Option Int
deriving DecidableEq, Repr

/-- Monday-flag cosmetic framing of the GOLDEN reason (part_001 lines 298-300). -/
def goldenReason (isMonday : Bool) : String :=
  if isMonday then
    "Monday Golden: Price above Weekly Max with strong positive trend. High probability start."
  else
    "Golden Breakout: Price holding above Weekly Max with confirmed positive momentum."

/-- Signal classifier: body of the signals useMemo of DecisionBuyAi rev 1
(src/unnamed/part_001 lines 276-336) for one ticker with a known level set.
The wall-clock inputs (Monday flag, first-seen time, current time) are
passed as parameters. Source condition names: isVwapPositive is
normalizedSlope above 0.05, isVwapNegative is normalizedSlope below -0.05,
isPriceAboveMax is price above max; conditions are inlined here. -/
def classifySignal (t : CexTicker) (vwap : VwapData) (isMonday : Bool)
    (firstSeen : Option Int) (now : Int) : Option BuySignal :=
  let price := t.priceUsd
  if price > vwap.max ∧ vwap.normalizedSlope > (0.05 : ℚ) then
    some { ticker := t, vwap := vwap,
           score := 95 + min 5 (vwap.normalizedSlope * 20),
           reason := goldenReason isMonday,
           type := BuyType.GOLDEN,
           activeSince := some (jsOrInt firstSeen now) }
  else if vwap.normalizedSlope < (-0.05 : ℚ) then
    some { ticker := t, vwap := vwap, score := 90,
           reason := "VWAP Trend reversal. Daily slope turned negative. High risk of redistribution.",
           type := BuyType.EXIT, activeSince := none }
  else if price > vwap.mid ∧ price < vwap.max ∧ vwap.normalizedSlope > (0.05 : ℚ) then
    some { ticker := t, vwap := vwap,
           score := 85 + min 10 (vwap.normalizedSlope * 10),
           reason := "Momentum buildup. Trend is positive and approaching Weekly Max resistance.",
           type := BuyType.MOMENTUM, activeSince := none }
  else if |price - vwap.mid| / vwap.mid < (0.02 : ℚ) ∧ vwap.normalizedSlope > (0.05 : ℚ) then
    some { ticker := t, vwap := vwap, score := 80,
           reason := "Bouncing off Weekly Mid support with positive daily trend confirmation.",
           type := BuyType.SUPPORT, activeSince := none }
  else
    none

/-- Concrete ticker used to instantiate classifier theorems. -/
def c2Ticker : CexTicker :=
  { id := "BTCUSDT", symbol := "BTC", pair := "BTC/USDT", priceUsd := 110,
    priceChange24h := 0, priceChangePercent24h := 0, high24h := 0, low24h := 0,
    volume24h := 0, trades24h := none, exchange := "Binance" }

/-- Concrete level set whose EXIT condition holds while price sits above max. -/
def c2Vwap : VwapData :=
  { max := 100, min := 90, mid := 95, slope := -1, normalizedSlope := -0.06,
    symbol := "BTC" }

/-- OHLCV daily candle (src/src/types.ts lines 130-139). The source field
named open is renamed openPrice because open is a Lean keyword. -/
structure OHLCV where
  time : Int
  openPrice : ℚ
  high : ℚ
  low : ℚ
  close : ℚ
  volume : ℚ
  quoteVolume : ℚ
  buyVolume : ℚ
deriving DecidableEq, Repr

/-- Daily VWAP of one candle (cexService.ts line 382). -/
def dailyVwap (k : OHLCV) : ℚ :=
  if k.volume > 0 then k.quoteVolume / k.volume else (k.high + k.low + k.close) / 3

/-- One accumulator step of the wMax update (cexService.ts line 391); the
-Infinity seed is modelled as none. -/
def maxStep (acc : Option ℚ) (v : ℚ) : Option ℚ :=
  match acc with
  | none => some v
  | some m => if v > m then some v else some m

/-- One accumulator step of the wMin update (cexService.ts line 392); the
Infinity seed is modelled as none. -/
def minStep (acc : Option ℚ) (v : ℚ) : Option ℚ :=
  match acc with
  | none => some v
  | some m => if v < m then some v else some m

/-- The forEach loop over indexed candles computing wMax and wMin
(cexService.ts lines 384-399): a candle contributes only when its open time
is on or after the Monday boundary (isSinceMonday) and it is not the last,
still-live candle (isCompletedDay). -/
def weeklyLoop (n : Nat) (mondayTs : Int) :
    List (Nat × OHLCV) → Option ℚ × Option ℚ → Option ℚ × Option ℚ
  | [], acc => acc
  | (i, k) :: rest, acc =>
      let dv := dailyVwap k
      let acc2 :=
        if k.time ≥ mondayTs ∧ i < n - 1 then (maxStep acc.1 dv, minStep acc.2 dv)
        else acc
      weeklyLoop n mondayTs rest acc2

/-- Plain fold of maxStep and minStep over a list of VWAP values; proof
vehicle relating weeklyLoop to the filtered candle list. -/
def maxMinFold : List ℚ → Option ℚ × Option ℚ → Option ℚ × Option ℚ
  | [], acc => acc
  | v :: vs, acc => maxMinFold vs (maxStep acc.1 v, minStep acc.2 v)

/-- True ranges of the candles after the first, each computed against the
close of its predecessor (cexService.ts lines 406-410, branch for index
above 0); the index-based access klines[i - 1].close of the source is
rendered as structural recursion carrying the previous candle. -/
def trueRangesAux : OHLCV → List OHLCV → List ℚ
  | _, [] => []
  | prev, d :: rest =>
      max (d.high - d.low) (max |d.high - prev.close| |d.low - prev.close|) ::
        trueRangesAux d rest

/-- True ranges of all candles (cexService.ts lines 406-410): the first
candle uses high minus low, later candles also consider the previous close. -/
def trueRanges : List OHLCV → List ℚ
  | [] => []
  | d :: rest => (d.high - d.low) :: trueRangesAux d rest

/-- ATR window length (cexService.ts line 403). -/
def ATR_LENGTH : Nat := 14

/-- Slope lookback (cexService.ts line 402). -/
def SLOPE_LOOKBACK : Nat := 10

/-- 14-day average true range (cexService.ts lines 412-416): the mean of the
last 14 true ranges, or 0 when fewer than 14 exist. -/
def computeAtr (klines : List OHLCV) : ℚ :=
  let tr := trueRanges klines
  let last14TR := tr.drop (tr.length - ATR_LENGTH)
  if last14TR.length = ATR_LENGTH then
    last14TR.foldl (fun s v => s + v) 0 / (ATR_LENGTH : ℚ)
  else 0

/-- Pure core of fetchWeeklyVwapData (cexService.ts lines 360-442): the
candle fetch and the wall-clock Monday computation are externalized; klines
is the fetched daily history and mondayTs the most recent Monday 00:00 UTC
in epoch seconds. Returns none when fewer than 15 candles exist. -/
def fetchWeeklyVwapData (symbol : String) (klines : List OHLCV)
    (mondayTs : Int) : Option VwapData :=
  if klines.length < 15 then none else
  let n := klines.length
  let rawVwap := klines.map dailyVwap
  let currentMid := (klines.getLast?).elim 0 dailyVwap
  let mm := weeklyLoop n mondayTs klines.enum (none, none)
  let currentAtr := computeAtr klines
  let lastIdx := n - 1
  let slope :=
    if lastIdx ≥ SLOPE_LOOKBACK then currentMid - rawVwap.getD (lastIdx - SLOPE_LOOKBACK) 0
    else 0
  let normalizedSlope :=
    if lastIdx ≥ SLOPE_LOOKBACK then (if currentAtr > 0 then slope / currentAtr else 0)
    else 0
  let wMax := (mm.1).elim currentMid id
  let wMin := (mm.2).elim currentMid id
  some { max := wMax, min := wMin, mid := currentMid, slope := slope,
         normalizedSlope := normalizedSlope, symbol := symbol }

/-- Spec-side description of the structural candle set: daily VWAPs of the
completed candles (all but the last) whose open time is on or after the
Monday boundary. -/
def structuralVwaps (klines : List OHLCV) (mondayTs : Int) : List ℚ :=
  ((klines.enum.filter
      (fun p => decide (p.2.time ≥ mondayTs ∧ p.1 < klines.length - 1))).map
    (fun p => dailyVwap p.2))

/-- A flat candle: constant price 5, unit volume, zero true range. -/
def flatCandle : OHLCV :=
  { time := 0, openPrice := 5, high := 5, low := 5, close := 5, volume := 1,
    quoteVolume := 5, buyVolume := 0 }

/-- Fifteen flat candles: a concrete accepted history. -/
def wKlines : List OHLCV :=
  [flatCandle, flatCandle, flatCandle, flatCandle, flatCandle,
   flatCandle, flatCandle, flatCandle, flatCandle, flatCandle,
   flatCandle, flatCandle, flatCandle, flatCandle, flatCandle]

/-- Level set computed from the flat history. -/
def wV : VwapData :=
  { max := 5, min := 5, mid := 5, slope := 0, normalizedSlope := 0, symbol := "W" }

/-! JS string operations, modelled over the character list so that concrete
instances evaluate; each mirrors the JS method used by the source. -/

/-- JS String.prototype.endsWith. -/
def jsEndsWith (s post : String) : Bool := post.data.isSuffixOf s.data

/-- Removal of the first occurrence of a pattern from a character list. -/
def removeFirst (pat : List Char) : List Char → List Char
  | [] => []
  | c :: rest =>
      if pat.isPrefixOf (c :: rest) then (c :: rest).drop pat.length
      else c :: removeFirst pat rest

/-- JS String.prototype.replace with a string pattern and empty replacement:
removes the first occurrence only. -/
def jsReplaceFirst (s pat : String) : String := String.mk (removeFirst pat.data s.data)

/-- Splitting a character list on a separator character. -/
def splitChar (sep : Char) : List Char → List (List Char)
  | [] => [[]]
  | c :: rest =>
      let r := splitChar sep rest
      if c = sep then [] :: r
      else
        match r with
        | [] => [[c]]
        | h :: t => (c :: h) :: t

/-- JS String.prototype.split with a one-character separator. -/
def jsSplitChar (sep : Char) (s : String) : List String :=
  (splitChar sep s.data).map String.mk

/-- Whitespace trim of a character list at both ends. -/
def trimChars (l : List Char) : List Char :=
  ((l.dropWhile Char.isWhitespace).reverse.dropWhile Char.isWhitespace).reverse

/-- JS String.prototype.trim. -/
def jsTrim (s : String) : String := String.mk (trimChars s.data)

/-- JS String.prototype.toUpperCase (ASCII, enough for the symbols used). -/
def jsToUpper (s : String) : String := String.mk (s.data.map Char.toUpper)

/-- Stable insertion of an element into a list sorted descending by key:
placed before the first strictly smaller key. -/
def insertDescBy (key : CexTicker → ℚ) (x : CexTicker) : List CexTicker → List CexTicker
  | [] => [x]
  | y :: ys => if key x > key y then x :: y :: ys else y :: insertDescBy key x ys

/-- Stable descending sort by key; models the engine Array.prototype.sort
with comparator on that key (cexService.ts lines 55 and 95). -/
def sortDescBy (key : CexTicker → ℚ) : List CexTicker → List CexTicker
  | [] => []
  | x :: xs => insertDescBy key x (sortDescBy key xs)

/-- Stablecoin symbol set (cexService.ts lines 16-19). -/
def STABLECOINS : List String :=
  [r"USDT", r"USDC", r"BUSD", r"DAI", r"FDUSD", r"TUSD", r"EUR", r"TRY", r"GBP",
   r"USDP", r"XUSD", r"USDE", r"USDS", r"VAI", r"AEUR", r"ZAR", r"UAH", r"PLN",
   r"RON", r"USD1"]

/-- isStable (cexService.ts lines 21-23). -/
def isStable (symbol : String) : Bool := STABLECOINS.contains (jsToUpper symbol)

/-- Suffix used by the Binance symbol filter (cexService.ts line 37). -/
def usdtSuffix : String := "USDT"

/-- Suffix used by the KuCoin symbol filter (cexService.ts line 77). -/
def usdtDashSuffix : String := "-USDT"

/-- Pair-name tail appended to the base symbol (cexService.ts line 44). -/
def usdtPairTail : String := "/USDT"

/-- Separator of the KuCoin symbol (cexService.ts line 79). -/
def dashChar : Char := ('-')

/-- The empty string. -/
def emptyStr : String := ""

/-- Symbol of the flat-candle witness history. -/
def wSym : String := "W"

/-- Raw Binance 24h ticker record (cexService.ts lines 41-52); the parseFloat
calls of the source are modelled by taking the fields as numbers. -/
structure BinanceRawTicker where
  symbol : String
  lastPrice : ℚ
  priceChange : ℚ
  priceChangePercent : ℚ
  highPrice : ℚ
  lowPrice : ℚ
  quoteVolume : ℚ
deriving DecidableEq, Repr

/-- Raw KuCoin ticker record (cexService.ts lines 78-92). -/
structure KuCoinRawTicker where
  symbol : String
  last : ℚ
  changePrice : ℚ
  changeRate : ℚ
  high : ℚ
  low : ℚ
  volValue : ℚ
deriving DecidableEq, Repr

/-- Mapping of one raw Binance ticker (cexService.ts lines 38-53): strips the
USDT suffix, drops stablecoins, builds the CexTicker. -/
def processBinanceTicker (t : BinanceRawTicker) : Option CexTicker :=
  let baseSymbol := jsReplaceFirst t.symbol usdtSuffix
  if isStable baseSymbol then none
  else some {
    id := t.symbol, symbol := baseSymbol, pair := baseSymbol ++ usdtPairTail,
    priceUsd := t.lastPrice, priceChange24h := t.priceChange,
    priceChangePercent24h := t.priceChangePercent, high24h := t.highPrice,
    low24h := t.lowPrice, volume24h := t.quoteVolume, trades24h := none,
    exchange := "Binance" }

/-- Binance response pipeline (cexService.ts lines 36-56): filter USDT pairs,
map and drop stablecoins, sort by quote volume descending, take the top 250. -/
def processBinance (data : List BinanceRawTicker) : List CexTicker :=
  ((sortDescBy CexTicker.volume24h
      ((data.filter (fun t => jsEndsWith t.symbol usdtSuffix)).filterMap
        processBinanceTicker)).take 250)

/-- Mapping of one raw KuCoin ticker (cexService.ts lines 78-93). -/
def processKuCoinTicker (t : KuCoinRawTicker) : Option CexTicker :=
  let symbol := (jsSplitChar dashChar t.symbol).headD emptyStr
  if isStable symbol then none
  else some {
    id := t.symbol, symbol := symbol, pair := symbol ++ usdtPairTail,
    priceUsd := t.last, priceChange24h := t.changePrice,
    priceChangePercent24h := t.changeRate * 100, high24h := t.high,
    low24h := t.low, volume24h := t.volValue, trades24h := none,
    exchange := "KuCoin" }

/-- KuCoin response pipeline (cexService.ts lines 76-96). -/
def processKuCoin (data : List KuCoinRawTicker) : List CexTicker :=
  ((sortDescBy CexTicker.volume24h
      ((data.filter (fun t => jsEndsWith t.symbol usdtDashSuffix)).filterMap
        processKuCoinTicker)).take 250)

/-- Shared REST cache entry (cexService.ts line 9). -/
structure TickerCache where
  data : List CexTicker
  ts : Int
deriving DecidableEq, Repr

/-- Cache TTL in milliseconds (cexService.ts line 10). -/
def CACHE_TTL : Int := 30000

/-- The network environment of one acquisition: each provider field is some
parsed body on success and none on transport error, non-2xx status, malformed
body, or (for KuCoin) a non-200000 business code. -/
structure FetchEnv where
  binance : Option (List BinanceRawTicker)
  kucoin : Option (List KuCoinRawTicker)

/-- fetchKuCoinTickers (cexService.ts lines 67-104): on success, refresh the
cache; on failure, return the cached data if any cache exists (with no TTL
check) and otherwise the empty list, leaving the cache unchanged. -/
def fetchKuCoinTickers (env : FetchEnv) (cache : Option TickerCache)
    (now : Int) : List CexTicker × Option TickerCache :=
  match env.kucoin with
  | some raw =>
      let tickers := processKuCoin raw
      (tickers, some { data := tickers, ts := now })
  | none => ((cache.map TickerCache.data).getD [], cache)

/-- Network part of fetchCexTickers (cexService.ts lines 28-64): query
Binance; on any failure fall back to fetchKuCoinTickers. -/
def fetchCexTickersNet (env : FetchEnv) (cache : Option TickerCache)
    (now : Int) : List CexTicker × Option TickerCache :=
  match env.binance with
  | some raw =>
      let tickers := processBinance raw
      (tickers, some { data := tickers, ts := now })
  | none => fetchKuCoinTickers env cache now

/-- fetchCexTickers (cexService.ts lines 25-65): serve a fresh cache within
its TTL, otherwise hit the network with KuCoin failover. All paths return a
plain list: the source catches every provider error, so the function never
throws. -/
def fetchCexTickers (env : FetchEnv) (cache : Option TickerCache)
    (now : Int) : List CexTicker × Option TickerCache :=
  match cache with
  | some c =>
      if now - c.ts < CACHE_TTL then (c.data, some c)
      else fetchCexTickersNet env (some c) now
  | none => fetchCexTickersNet env none now

/-- Failure taxonomy entry of the spec. -/
inductive FetchError where
  | SourceUnavailable
deriving DecidableEq, Repr

/-- The claim-side adapter contract, following the spec words: on both
providers failing, return the last good cached result if still within TTL,
else fail with SourceUnavailable. Stated for comparison with the embedded
fetchCexTickers. -/
def fetchTickersClaimed (env : FetchEnv) (cache : Option TickerCache)
    (now : Int) : Except FetchError (List CexTicker) :=
  match env.binance with
  | some raw => Except.ok (processBinance raw)
  | none =>
      match env.kucoin with
      | some raw => Except.ok (processKuCoin raw)
      | none =>
          match cache with
          | some c =>
              if now - c.ts < CACHE_TTL then Except.ok c.data
              else Except.error FetchError.SourceUnavailable
          | none => Except.error FetchError.SourceUnavailable

/-- Environment in which both providers fail. -/
def envBothFail : FetchEnv := { binance := none, kucoin := none }

/-- A stale cache: written at time 0, queried at time 100000, TTL 30000. -/
def staleCache : Option TickerCache := some { data := [c2Ticker], ts := 0 }

/-- Signal kinds accepted by the telegram service (telegramService.ts
line 121). -/
inductive TgType where
  | GOLDEN
  | MOMENTUM
  | SUPPORT
  | CONVERGENCE
  | EXIT
deriving DecidableEq, Repr

/-- TelegramConfig (telegramService.ts lines 8-12). -/
structure TelegramConfig where
  botToken : String
  chatId : String
  enabled : Bool
deriving DecidableEq, Repr

/-- Parameters of sendGoldenSignalAlert (telegramService.ts lines 113-122). -/
structure AlertParams where
  symbol : String
  price : ℚ
  change24h : ℚ
  score : ℚ
  vwapMax : ℚ
  vwapMid : ℚ
  reason : String
  type : TgType
deriving DecidableEq, Repr

/-- Chat id separator (telegramService.ts line 66). -/
def commaChar : Char := (',')

/-- parseChatIds (telegramService.ts lines 65-67): split on commas, trim,
drop empties. -/
def parseChatIds (chatIdStr : String) : List String :=
  ((jsSplitChar commaChar chatIdStr).map jsTrim).filter
    (fun c => decide (c.length > 0))

/-- sendTelegramMessage (telegramService.ts lines 92-103): requires a token
and chat list, then posts to every chat; the transport oracle tells which
chats accept. Returns whether at least one accepted and the chats messaged.
The message text does not influence acceptance in this model. -/
def sendTelegramMessage (config : TelegramConfig)
    (transport : String → Bool) : Bool × List String :=
  if config.botToken = "" ∨ config.chatId = "" then (false, [])
  else
    let chatIds := parseChatIds config.chatId
    if chatIds = [] then (false, [])
    else ((chatIds.map transport).any (fun b => b), chatIds)

/-- Observable outcome of sendGoldenSignalAlert: the returned flag, the chats
messaged, and the symbol recorded by markAlerted when delivery succeeded. -/
structure AlertOutcome where
  sent : Bool
  chats : List String
  marked : Option String
deriving DecidableEq, Repr

/-- sendGoldenSignalAlert (telegramService.ts lines 113-154): the type
allow-list guard admits GOLDEN, CONVERGENCE and EXIT; then the config gate;
then delivery, with markAlerted called only when at least one recipient
accepted. -/
def sendGoldenSignalAlert (params : AlertParams) (config : TelegramConfig)
    (transport : String → Bool) : AlertOutcome :=
  if params.type ≠ TgType.GOLDEN ∧ params.type ≠ TgType.CONVERGENCE ∧
      params.type ≠ TgType.EXIT then
    { sent := false, chats := [], marked := none }
  else if ¬config.enabled ∨ config.botToken = "" ∨ config.chatId = "" then
    { sent := false, chats := [], marked := none }
  else
    let r := sendTelegramMessage config transport
    { sent := r.1, chats := r.2,
      marked := if r.1 then some params.symbol else none }

/-- A CONVERGENCE alert request. -/
def c7Params : AlertParams :=
  { symbol := "ABC", price := 1, change24h := 0, score := 99, vwapMax := 1,
    vwapMid := 1, reason := "mtf convergence", type := TgType.CONVERGENCE }

/-- An enabled telegram configuration with one chat. -/
def c7Config : TelegramConfig := { botToken := "tok", chatId := "7", enabled := true }

/-- In-memory dedup state of the alert effect: the alertedRef and
exitAlertedRef sets (part_001 lines 249-250), modelled as lists. -/
structure AlertState where
  alerted : List String
  exitAlerted : List String
deriving DecidableEq, Repr

/-- JS Set.prototype.add. -/
def addSet (s : List String) (x : String) : List String :=
  if x ∈ s then s else s ++ [x]

/-- JS Set.prototype.delete; the source sometimes guards the delete with a
has check, which changes nothing. -/
def delSet (s : List String) (x : String) : List String :=
  s.filter (fun y => decide (y ≠ x))

/-- Processing of one signal inside the alert effect loop (part_001 lines
365-410). A GOLDEN signal whose symbol is not yet in the alerted set is
dispatched, the symbol added to alerted and removed from exitAlerted; an
EXIT signal dually with the exit set; any other kind removes the golden
mark. The oracle orc reports whether the fire-and-forget
sendGoldenSignalAlert call would deliver; the source ignores that result,
so it is only recorded in the dispatch log, never consulted. -/
def processSignal (orc : String → BuyType → Bool)
    (acc : AlertState × List (String × BuyType × Bool)) (sig : BuySignal) :
    AlertState × List (String × BuyType × Bool) :=
  let st := acc.1
  let symbol := sig.ticker.symbol
  match sig.type with
  | BuyType.GOLDEN =>
      if symbol ∈ st.alerted then acc
      else ({ alerted := addSet st.alerted symbol,
              exitAlerted := delSet st.exitAlerted symbol },
            acc.2 ++ [(symbol, BuyType.GOLDEN, orc symbol BuyType.GOLDEN)])
  | BuyType.EXIT =>
      if symbol ∈ st.exitAlerted then acc
      else ({ alerted := delSet st.alerted symbol,
              exitAlerted := addSet st.exitAlerted symbol },
            acc.2 ++ [(symbol, BuyType.EXIT, orc symbol BuyType.EXIT)])
  | _ => ({ alerted := delSet st.alerted symbol, exitAlerted := st.exitAlerted }, acc.2)

/-- One run of the telegram alert effect (part_001 lines 358-423): nothing
when alerting is disabled; otherwise fold the loop over the signal list and
then delete every marked symbol that fell out of the signal set. Returns the
new dedup state and the dispatch log of the cycle. -/
def alertCycle (enabled : Bool) (orc : String → BuyType → Bool)
    (signals : List BuySignal) (st : AlertState) :
    AlertState × List (String × BuyType × Bool) :=
  if enabled then
    let allActiveSymbols := signals.map (fun x => x.ticker.symbol)
    let r := signals.foldl (processSignal orc) (st, [])
    ({ alerted := r.1.alerted.filter (fun x => decide (x ∈ allActiveSymbols)),
       exitAlerted := r.1.exitAlerted.filter (fun x => decide (x ∈ allActiveSymbols)) },
     r.2)
  else (st, [])

/-- The GOLDEN-kind dispatches for one symbol in a dispatch log. -/
def countGoldenFor (s : String) (d : List (String × BuyType × Bool)) : Nat :=
  (d.filter (fun e => decide (e.1 = s ∧ e.2.1 = BuyType.GOLDEN))).length

/-- A ticker for symbol A. -/
def aTicker : CexTicker :=
  { c2Ticker with id := "AUSDT", symbol := "A", pair := "A/USDT" }

/-- A GOLDEN signal for symbol A. -/
def goldenSigA : BuySignal :=
  { ticker := aTicker, vwap := c2Vwap, score := 96, reason := "golden",
    type := BuyType.GOLDEN, activeSince := some 1 }

/-- Dispatch logs of a five-cycle alert trace: three cycles with the same
signal list around the symbol, one cycle with a replacement signal list, and
one cycle with the original list again. Returns the combined log of the
first three cycles and the combined log of the last two. -/
def fiveCycleTrace (orc : String → BuyType → Bool) (g : BuySignal)
    (mid : List BuySignal) (st0 : AlertState) :
    List (String × BuyType × Bool) × List (String × BuyType × Bool) :=
  let c1 := alertCycle true orc [g] st0
  let c2 := alertCycle true orc [g] c1.1
  let c3 := alertCycle true orc [g] c2.1
  let c4 := alertCycle true orc mid c3.1
  let c5 := alertCycle true orc [g] c4.1
  (c1.2 ++ c2.2 ++ c3.2, c4.2 ++ c5.2)

/-- TrackedGolden ledger entry, rev 2 shape: the rev 1 interface (part_001
lines 10-23) plus the wasCounted and tpHit fields set at the rev 2 creation
site (part_001 lines 1246-1258). Optional fields model JS undefined. -/
structure TrackedGolden where
  symbol : String
  entryPrice : ℚ
  signalTime : Int
  maxPrice : ℚ
  maxGainPct : ℚ
  lastPrice : ℚ
  stillActive : Bool
  history : Option (List ℚ)
  exitPrice : Option ℚ
  exitTime : Option Int
  realizedPnl : Option ℚ
  wasActive : Option Bool
  wasCounted : Option Bool
  tpHit : Option Bool
deriving DecidableEq, Repr

/-- GoldenStats, shaped as the loadGoldenStats default (part_001 lines
808-813). -/
structure GoldenStats where
  totalSignals : Nat
  successCount : Nat
  successRate : ℚ
  avgGain : ℚ
deriving DecidableEq, Repr

/-- Ledger retention window (part_001 line 806): 24 hours in milliseconds. -/
def TRACKER_EXPIRY_MS : Int := 24 * 60 * 60 * 1000

/-- loadTrackedGoldens (part_001 lines 819-828): the stored record, none on
absence or parse failure, filtered to entries younger than the window. -/
def loadTrackedGoldens (stored : Option (List TrackedGolden)) (now : Int) :
    List TrackedGolden :=
  (stored.getD []).filter (fun t => decide (now - t.signalTime < TRACKER_EXPIRY_MS))

/-- saveTrackedGoldens (part_001 lines 830-834): returns the record as
persisted, filtered to entries younger than the window. -/
def saveTrackedGoldens (data : List TrackedGolden) (now : Int) :
    List TrackedGolden :=
  data.filter (fun t => decide (now - t.signalTime < TRACKER_EXPIRY_MS))

/-- Fresh ledger entry for a new GOLDEN signal (part_001 lines 1246-1258). -/
def mkTrackedGolden (sig : BuySignal) (now : Int) : TrackedGolden :=
  { symbol := sig.ticker.symbol, entryPrice := sig.ticker.priceUsd,
    signalTime := jsOrInt sig.activeSince now,
    maxPrice := sig.ticker.priceUsd, maxGainPct := 0,
    lastPrice := sig.ticker.priceUsd, stillActive := true,
    wasActive := some true, history := some [sig.ticker.priceUsd],
    wasCounted := some true, tpHit := some false,
    exitPrice := none, exitTime := none, realizedPnl := none }

/-- In-place mutation of the first entry with the given symbol, as the
source mutates the object returned by Array.prototype.find. -/
def replaceFirst (l : List TrackedGolden) (s : String) (t2 : TrackedGolden) :
    List TrackedGolden :=
  match l with
  | [] => []
  | t :: ts => if t.symbol = s then t2 :: ts else t :: replaceFirst ts s t2

/-- Step 1 of the tracker effect for one GOLDEN signal (part_001 lines
1243-1266): push a fresh entry and count it when the symbol is untracked;
reactivate a tracked entry that is inactive and not yet closed. -/
def trackGoldenStep (now : Int) (acc : List TrackedGolden × GoldenStats)
    (sig : BuySignal) : List TrackedGolden × GoldenStats :=
  let updated := acc.1
  let stats := acc.2
  match updated.find? (fun t => decide (t.symbol = sig.ticker.symbol)) with
  | none =>
      (updated ++ [mkTrackedGolden sig now],
       { stats with totalSignals := stats.totalSignals + 1 })
  | some existing =>
      if existing.stillActive = false ∧ jsTruthyInt existing.exitTime = false then
        (replaceFirst updated sig.ticker.symbol
          { existing with stillActive := true, wasActive := some true }, stats)
      else (updated, stats)

/-- Step 2 of the tracker effect for one entry (part_001 lines 1269-1333):
closed entries and entries without a ticker are returned untouched; an
active entry at or above 4 percent unrealized gain is closed by the early
return at line 1282, which keeps tpHit and does not touch the stats; the
second take-profit block (lines 1302-1321), which would set tpHit and
increment successCount, sits behind the identical condition and is
therefore unreachable; otherwise the running fields are refreshed. -/
def updateTrackedEntry (goldenSymbols : List String) (tickers : List CexTicker)
    (now : Int) (stats : GoldenStats) (t : TrackedGolden) :
    TrackedGolden × GoldenStats :=
  if jsTruthyInt t.exitTime then (t, stats)
  else
    match tickers.find? (fun tk => decide (tk.symbol = t.symbol)) with
    | none => (t, stats)
    | some ticker =>
        let isCurrentlyGolden := decide (t.symbol ∈ goldenSymbols)
        let currentPrice := ticker.priceUsd
        let pnl := (currentPrice - t.entryPrice) / t.entryPrice * 100
        if t.stillActive = true ∧ pnl ≥ 4 then
          ({ t with
             lastPrice := currentPrice
             stillActive := false
             exitPrice := some currentPrice
             exitTime := some now
             realizedPnl := some pnl
             maxPrice := max t.maxPrice currentPrice
             maxGainPct := max t.maxGainPct pnl }, stats)
        else
          let newMax := max t.maxPrice currentPrice
          let newMaxGain := max t.maxGainPct pnl
          let history := t.history.getD [t.entryPrice]
          let shouldAddPoint := decide (history.length < 144) &&
            decide (now - (t.signalTime + ((history.length : Int) - 1) * 10 * 60 * 1000) >
              10 * 60 * 1000)
          let isHittingTp := pnl ≥ 4 ∧ t.stillActive = true
          let stats2 :=
            if isHittingTp ∧ jsTruthyBool t.tpHit = false then
              { stats with successCount := stats.successCount + 1 }
            else stats
          if isHittingTp then
            ({ t with
               lastPrice := currentPrice
               stillActive := false
               exitPrice := some currentPrice
               exitTime := some now
               realizedPnl := some pnl
               maxPrice := newMax
               maxGainPct := newMaxGain
               history := some (if shouldAddPoint then history ++ [currentPrice] else history)
               tpHit := some true }, stats2)
          else
            ({ t with
               lastPrice := currentPrice
               maxPrice := newMax
               maxGainPct := newMaxGain
               stillActive := t.stillActive || isCurrentlyGolden
               history := some (if shouldAddPoint then history ++ [currentPrice] else history)
               tpHit := t.tpHit }, stats2)

/-- Step 2 over the whole ledger, threading the shared stats object left to
right as the source map-closure does. -/
def updateAllTracked (goldenSymbols : List String) (tickers : List CexTicker)
    (now : Int) : List TrackedGolden → GoldenStats →
    List TrackedGolden × GoldenStats
  | [], stats => ([], stats)
  | t :: ts, stats =>
      let r := updateTrackedEntry goldenSymbols tickers now stats t
      let rest := updateAllTracked goldenSymbols tickers now ts r.2
      (r.1 :: rest.1, rest.2)

/-- Result of one tracker reconciliation: the in-memory ledger, the record
persisted by saveTrackedGoldens, and the aggregate stats. The statsChanged
flag of the source is not modelled: the stats object starts as the loaded
copy and is saved exactly when a counter changed, so the effective persisted
stats always equal the threaded value. -/
structure ReconcileResult where
  entries : List TrackedGolden
  persisted : List TrackedGolden
  stats : GoldenStats
deriving DecidableEq, Repr

/-- The tracker effect of DecisionBuyAi rev 2 (part_001 lines 1232-1344):
step 1 opens or reactivates entries for current GOLDEN signals, step 2
refreshes every entry against current tickers, step 3 purges entries at or
beyond the retention window, and the result is persisted. -/
def reconcileTracker (signals : List BuySignal) (tickers : List CexTicker)
    (now : Int) (prev : List TrackedGolden) (stats0 : GoldenStats) :
    ReconcileResult :=
  let goldenSignals := signals.filter (fun s => decide (s.type = BuyType.GOLDEN))
  let goldenSymbols := goldenSignals.map (fun s => s.ticker.symbol)
  let r1 := goldenSignals.foldl (trackGoldenStep now) (prev, stats0)
  let r2 := updateAllTracked goldenSymbols tickers now r1.1 r1.2
  let upd := r2.1.filter (fun t => decide (now - t.signalTime < TRACKER_EXPIRY_MS))
  { entries := upd, persisted := saveTrackedGoldens upd now, stats := r2.2 }

/-- A fresh open ledger entry for symbol A at entry price 100. -/
def c8Entry : TrackedGolden :=
  { symbol := "A", entryPrice := 100, signalTime := 500, maxPrice := 100,
    maxGainPct := 0, lastPrice := 100, stillActive := true,
    history := some [100], exitPrice := none, exitTime := none,
    realizedPnl := none, wasActive := some true, wasCounted := some true,
    tpHit := some false }

/-- Initial aggregate stats with one signal counted. -/
def gstats0 : GoldenStats :=
  { totalSignals := 1, successCount := 0, successRate := 0, avgGain := 0 }

/-- A closed ledger entry for symbol A. -/
def c10Entry : TrackedGolden :=
  { c8Entry with
    stillActive := false
    exitPrice := some 104
    exitTime := some 700
    realizedPnl := some 4 }

/-- Ticker for A at 104: exactly 4 percent above the entry price 100. -/
def c1TickerHit : CexTicker := { aTicker with priceUsd := 104 }

/-- Ticker for A at 103.99: just below the 4 percent take profit. -/
def c1TickerMiss : CexTicker := { aTicker with priceUsd := 10399 / 100 }

/-- The entry produced from c8Entry by the take-profit early return at price
104: closed, realized pnl 4, but tpHit still false. -/
def c1Closed : TrackedGolden :=
  { c8Entry with
    lastPrice := 104
    stillActive := false
    exitPrice := some 104
    exitTime := some 1000
    realizedPnl := some 4
    maxPrice := 104
    maxGainPct := 4 }

/-- The entry produced from c8Entry at price 103.99: still open. -/
def c1Open : TrackedGolden :=
  { c8Entry with
    lastPrice := 10399 / 100
    maxPrice := 10399 / 100
    maxGainPct := 399 / 100
    stillActive := true }

/-- Claim C2: when the EXIT condition (normalizedSlope below -0.05) holds, the
classifier returns an EXIT signal even when the price part of the GOLDEN
condition (price strictly above the structural max) also holds. The literal
conjunction of the full GOLDEN condition with the EXIT condition is
unsatisfiable (the slope cannot be both above 0.05 and below -0.05), so this
strictly stronger satisfiable statement implies the claim as written: EXIT
wins whenever its condition holds, independent of price position. -/
theorem C2_exit_precedence (t : CexTicker) (vwap : VwapData) (isMonday : Bool)
    (firstSeen : Option Int) (now : Int)
    (hmax : vwap.max < t.priceUsd)
    (hneg : vwap.normalizedSlope < (-0.05 : ℚ)) :
    (classifySignal t vwap isMonday firstSeen now).map BuySignal.type =
      some BuyType.EXIT := by
  have hm : vwap.max < t.priceUsd := hmax
  have h1 : ¬(t.priceUsd > vwap.max ∧ vwap.normalizedSlope > (0.05 : ℚ)) := by
    rintro ⟨-, h⟩
    linarith
  simp [classifySignal, h1, hneg]

/-- Witness for C2 at a concrete input: price 110 above max 100, slope -0.06. -/
theorem C2_witness :
    (classifySignal c2Ticker c2Vwap false none 0).map BuySignal.type =
      some BuyType.EXIT :=
  C2_exit_precedence c2Ticker c2Vwap false none 0 (by norm_num [c2Ticker, c2Vwap])
    (by norm_num [c2Vwap])

/-- weeklyLoop equals the plain max-min fold over the filtered, mapped list. -/
lemma weeklyLoop_eq_maxMinFold (n : Nat) (m : Int) :
    ∀ (l : List (Nat × OHLCV)) (acc : Option ℚ × Option ℚ),
      weeklyLoop n m l acc =
        maxMinFold
          ((l.filter (fun p => decide (p.2.time ≥ m ∧ p.1 < n - 1))).map
            (fun p => dailyVwap p.2)) acc
  | [], acc => rfl
  | (i, k) :: rest, acc => by
      by_cases h : k.time ≥ m ∧ i < n - 1
      · simp only [weeklyLoop, List.filter_cons, h, decide_True, List.map_cons,
          maxMinFold, if_true]
        exact weeklyLoop_eq_maxMinFold n m rest _
      · simp only [weeklyLoop, List.filter_cons, h, decide_False, if_false]
        exact weeklyLoop_eq_maxMinFold n m rest acc

/-- maxMinFold is the componentwise foldl of maxStep and minStep. -/
lemma maxMinFold_eq_foldl :
    ∀ (vs : List ℚ) (a b : Option ℚ),
      maxMinFold vs (a, b) = (vs.foldl maxStep a, vs.foldl minStep b)
  | [], _, _ => rfl
  | v :: vs, a, b => by
      simp only [maxMinFold, List.foldl_cons]
      exact maxMinFold_eq_foldl vs _ _

/-- Folding maxStep from a some seed yields the greatest of seed and elements. -/
lemma foldl_maxStep_some :
    ∀ (vs : List ℚ) (a : ℚ),
      ∃ mx, vs.foldl maxStep (some a) = some mx ∧ mx ∈ a :: vs ∧ a ≤ mx ∧
        ∀ x ∈ vs, x ≤ mx
  | [], a => ⟨a, rfl, List.mem_cons_self a [], le_refl a, by simp⟩
  | v :: vs, a => by
      have step : maxStep (some a) v = some (if v > a then v else a) := by
        by_cases hva : v > a <;> simp [maxStep, hva]
      obtain ⟨mx, hfold, hmem, hle, hbound⟩ := foldl_maxStep_some vs (if v > a then v else a)
      refine ⟨mx, ?_, ?_, ?_, ?_⟩
      · simpa [step] using hfold
      · rcases List.mem_cons.mp hmem with h | h
        · by_cases hva : v > a
          · simp only [if_pos hva] at h
            rw [h]
            exact List.mem_cons_of_mem a (List.mem_cons_self v vs)
          · simp only [if_neg hva] at h
            rw [h]
            exact List.mem_cons_self a (v :: vs)
        · exact List.mem_cons_of_mem a (List.mem_cons_of_mem v h)
      · by_cases hva : v > a
        · simp only [if_pos hva] at hle
          exact le_of_lt (lt_of_lt_of_le hva hle)
        · simpa [if_neg hva] using hle
      · intro x hx
        rcases List.mem_cons.mp hx with h | h
        · subst h
          by_cases hva : x > a
          · simpa [if_pos hva] using hle
          · exact le_trans (le_of_not_lt hva) (by simpa [if_neg hva] using hle)
        · exact hbound x h

/-- Folding maxStep from none over a nonempty list yields the maximum. -/
lemma foldl_maxStep_none (v : ℚ) (vs : List ℚ) :
    ∃ mx, (v :: vs).foldl maxStep none = some mx ∧ mx ∈ v :: vs ∧
      ∀ x ∈ v :: vs, x ≤ mx := by
  obtain ⟨mx, hfold, hmem, hle, hbound⟩ := foldl_maxStep_some vs v
  refine ⟨mx, ?_, hmem, ?_⟩
  · simpa [maxStep] using hfold
  · intro x hx
    rcases List.mem_cons.mp hx with h | h
    · exact h ▸ hle
    · exact hbound x h

/-- Folding minStep from a some seed yields the least of seed and elements. -/
lemma foldl_minStep_some :
    ∀ (vs : List ℚ) (a : ℚ),
      ∃ mn, vs.foldl minStep (some a) = some mn ∧ mn ∈ a :: vs ∧ mn ≤ a ∧
        ∀ x ∈ vs, mn ≤ x
  | [], a => ⟨a, rfl, List.mem_cons_self a [], le_refl a, by simp⟩
  | v :: vs, a => by
      have step : minStep (some a) v = some (if v < a then v else a) := by
        by_cases hva : v < a <;> simp [minStep, hva]
      obtain ⟨mn, hfold, hmem, hle, hbound⟩ := foldl_minStep_some vs (if v < a then v else a)
      refine ⟨mn, ?_, ?_, ?_, ?_⟩
      · simpa [step] using hfold
      · rcases List.mem_cons.mp hmem with h | h
        · by_cases hva : v < a
          · simp only [if_pos hva] at h
            rw [h]
            exact List.mem_cons_of_mem a (List.mem_cons_self v vs)
          · simp only [if_neg hva] at h
            rw [h]
            exact List.mem_cons_self a (v :: vs)
        · exact List.mem_cons_of_mem a (List.mem_cons_of_mem v h)
      · by_cases hva : v < a
        · simp only [if_pos hva] at hle
          exact le_of_lt (lt_of_le_of_lt hle hva)
        · simpa [if_neg hva] using hle
      · intro x hx
        rcases List.mem_cons.mp hx with h | h
        · subst h
          by_cases hva : x < a
          · simpa [if_pos hva] using hle
          · exact le_trans (by simpa [if_neg hva] using hle) (le_of_not_lt hva)
        · exact hbound x h

/-- Folding minStep from none over a nonempty list yields the minimum. -/
lemma foldl_minStep_none (v : ℚ) (vs : List ℚ) :
    ∃ mn, (v :: vs).foldl minStep none = some mn ∧ mn ∈ v :: vs ∧
      ∀ x ∈ v :: vs, mn ≤ x := by
  obtain ⟨mn, hfold, hmem, hle, hbound⟩ := foldl_minStep_some vs v
  refine ⟨mn, ?_, hmem, ?_⟩
  · simpa [minStep] using hfold
  · intro x hx
    rcases List.mem_cons.mp hx with h | h
    · exact h ▸ hle
    · exact hbound x h

/-- The max-min pair of fetchWeeklyVwapData is the fold over structuralVwaps. -/
lemma weekly_mm_eq (klines : List OHLCV) (mondayTs : Int) :
    weeklyLoop klines.length mondayTs klines.enum (none, none) =
      ((structuralVwaps klines mondayTs).foldl maxStep none,
       (structuralVwaps klines mondayTs).foldl minStep none) := by
  rw [weeklyLoop_eq_maxMinFold, maxMinFold_eq_foldl]
  rfl

/-- Claim C3: for every candle sequence accepted by the level calculator, the
structural max and min are the maximum and minimum daily VWAP over completed
candles (all but the live last one) whose open time is on or after the Monday
boundary; the live last candle is excluded from max and min but supplies mid;
and when no completed candle since Monday exists, max and min both equal mid. -/
theorem C3_structural_levels (symbol : String) (klines : List OHLCV)
    (mondayTs : Int) (v : VwapData)
    (hv : fetchWeeklyVwapData symbol klines mondayTs = some v) :
    v.mid = (klines.getLast?).elim 0 dailyVwap ∧
    (structuralVwaps klines mondayTs = [] → v.max = v.mid ∧ v.min = v.mid) ∧
    (structuralVwaps klines mondayTs ≠ [] →
      v.max ∈ structuralVwaps klines mondayTs ∧
      (∀ x ∈ structuralVwaps klines mondayTs, x ≤ v.max) ∧
      v.min ∈ structuralVwaps klines mondayTs ∧
      (∀ x ∈ structuralVwaps klines mondayTs, v.min ≤ x)) := by
  unfold fetchWeeklyVwapData at hv
  by_cases hlen : klines.length < 15
  · simp [hlen] at hv
  · simp only [hlen, if_false, weekly_mm_eq, Option.some.injEq] at hv
    subst hv
    cases hs : structuralVwaps klines mondayTs with
    | nil =>
        refine ⟨rfl, fun _ => ?_, fun hne => absurd rfl hne⟩
        simp [hs]
    | cons a as =>
        obtain ⟨mx, hmaxfold, hmaxmem, hmaxbound⟩ := foldl_maxStep_none a as
        obtain ⟨mn, hminfold, hminmem, hminbound⟩ := foldl_minStep_none a as
        refine ⟨rfl, fun h0 => absurd h0 (List.cons_ne_nil a as), fun _ => ?_⟩
        simp only [hmaxfold, hminfold, Option.elim, id]
        exact ⟨hmaxmem, hmaxbound, hminmem, hminbound⟩

/-- Witness for C3 on fifteen flat candles with the boundary at time 0: the
structural set is nonempty and the computed max bounds it from above. -/
theorem C3_witness :
    wV.max ∈ structuralVwaps wKlines 0 ∧
      ∀ x ∈ structuralVwaps wKlines 0, x ≤ wV.max := by
  have hdv : dailyVwap flatCandle = 5 := by norm_num [dailyVwap, flatCandle]
  have ht : flatCandle.time = 0 := rfl
  have hatr : computeAtr wKlines = 0 := by
    norm_num [computeAtr, trueRanges, trueRangesAux, wKlines, flatCandle,
      ATR_LENGTH]
  have hv : fetchWeeklyVwapData wSym wKlines 0 = some wV := by
    norm_num [fetchWeeklyVwapData, wKlines, hdv, hatr, weeklyLoop, List.enum,
      List.enumFrom, SLOPE_LOOKBACK, maxStep, minStep, wV, ht, wSym]
  have hne : structuralVwaps wKlines 0 ≠ [] := by
    norm_num [structuralVwaps, wKlines, hdv, List.enum, List.enumFrom, ht]
    simp
  have h := (C3_structural_levels wSym wKlines 0 wV hv).2.2 hne
  exact ⟨h.1, h.2.1⟩

/-- Claim C9: the level calculator returns normalizedSlope 0 whenever the
14-day ATR is 0, and a nonzero normalizedSlope can only arise from a strictly
positive ATR, so the slope normalization never divides by zero (the division
sits under the ATR-positive guard in the source). -/
theorem C9_atr_zero_guard (symbol : String) (klines : List OHLCV)
    (mondayTs : Int) (v : VwapData)
    (hv : fetchWeeklyVwapData symbol klines mondayTs = some v) :
    (computeAtr klines = 0 → v.normalizedSlope = 0) ∧
    (v.normalizedSlope ≠ 0 → 0 < computeAtr klines) := by
  unfold fetchWeeklyVwapData at hv
  by_cases hlen : klines.length < 15
  · simp [hlen] at hv
  · simp only [hlen, if_false, Option.some.injEq] at hv
    subst hv
    constructor
    · intro h0
      simp only [h0]
      split
      · simp
      · rfl
    · intro hns
      by_cases hatr : 0 < computeAtr klines
      · exact hatr
      · exfalso
        apply hns
        simp only
        split
        all_goals simp [hatr]

/-- Witness for C9 on fifteen flat candles: the ATR is 0 and the computed
normalizedSlope is 0. -/
theorem C9_witness : wV.normalizedSlope = 0 := by
  have hdv : dailyVwap flatCandle = 5 := by norm_num [dailyVwap, flatCandle]
  have ht : flatCandle.time = 0 := rfl
  have hatr : computeAtr wKlines = 0 := by
    norm_num [computeAtr, trueRanges, trueRangesAux, wKlines, flatCandle,
      ATR_LENGTH]
  have hv : fetchWeeklyVwapData wSym wKlines 0 = some wV := by
    norm_num [fetchWeeklyVwapData, wKlines, hdv, hatr, weeklyLoop, List.enum,
      List.enumFrom, SLOPE_LOOKBACK, maxStep, minStep, wV, ht, wSym]
  exact (C9_atr_zero_guard wSym wKlines 0 wV hv).1 hatr

/-- Counterexample to claim C4: with both providers failed and the cache
expired (written at 0, queried at 100000 with TTL 30000), the adapter does
not fail: it returns the stale cached data, while the claimed contract
demands a SourceUnavailable error at exactly this input. -/
theorem C4_counterexample :
    (fetchCexTickers envBothFail staleCache 100000).1 = [c2Ticker] ∧
    fetchTickersClaimed envBothFail staleCache 100000 =
      Except.error FetchError.SourceUnavailable ∧
    ¬((100000 : Int) - 0 < CACHE_TTL) := by
  refine ⟨?_, ?_, ?_⟩
  · simp [fetchCexTickers, fetchCexTickersNet, fetchKuCoinTickers, envBothFail,
      staleCache, CACHE_TTL]
  · simp [fetchTickersClaimed, envBothFail, staleCache, CACHE_TTL]
  · simp [CACHE_TTL]

/-- Claim C4 as amended: when both providers fail, fetchCexTickers never
throws and returns the last good cached data when any cache exists,
regardless of its age, and the empty list otherwise; the cache is left
unchanged. (The claim as written says an expired cache yields an error; the
code performs no TTL check on this path and has no failing path at all.) -/
theorem C4_amended_cache_fallback (env : FetchEnv) (cache : Option TickerCache)
    (now : Int) (hb : env.binance = none) (hk : env.kucoin = none) :
    fetchCexTickers env cache now = ((cache.map TickerCache.data).getD [], cache) := by
  cases cache with
  | none => simp [fetchCexTickers, fetchCexTickersNet, fetchKuCoinTickers, hb, hk]
  | some c =>
      by_cases h : now - c.ts < CACHE_TTL
      · simp [fetchCexTickers, h]
      · simp [fetchCexTickers, h, fetchCexTickersNet, fetchKuCoinTickers, hb, hk]

/-- Witness for the amended C4 at the concrete stale input. -/
theorem C4_witness :
    fetchCexTickers envBothFail staleCache 100000 = ([c2Ticker], staleCache) := by
  have h := C4_amended_cache_fallback envBothFail staleCache 100000 rfl rfl
  simpa [staleCache] using h

/-- Counterexample to claim C7: a CONVERGENCE signal, which is neither GOLDEN
nor EXIT, passes the allow-list and is delivered when the config is enabled
and the transport accepts. -/
theorem C7_counterexample :
    (sendGoldenSignalAlert c7Params c7Config (fun _ => true)).sent = true ∧
    c7Params.type ≠ TgType.GOLDEN ∧ c7Params.type ≠ TgType.EXIT := by
  refine ⟨?_, by decide, by decide⟩
  decide

/-- Claim C7 as amended: the hard allow-list of sendGoldenSignalAlert admits
GOLDEN, CONVERGENCE and EXIT; every other kind (MOMENTUM, SUPPORT) returns
false without messaging any chat or marking anything, regardless of config
and transport; and a true result is only possible for an allow-listed kind. -/
theorem C7_amended_allow_list (params : AlertParams) (config : TelegramConfig)
    (transport : String → Bool) :
    ((params.type = TgType.MOMENTUM ∨ params.type = TgType.SUPPORT) →
      sendGoldenSignalAlert params config transport =
        { sent := false, chats := [], marked := none }) ∧
    ((sendGoldenSignalAlert params config transport).sent = true →
      params.type = TgType.GOLDEN ∨ params.type = TgType.CONVERGENCE ∨
        params.type = TgType.EXIT) := by
  constructor
  · intro h
    have hne : params.type ≠ TgType.GOLDEN ∧ params.type ≠ TgType.CONVERGENCE ∧
        params.type ≠ TgType.EXIT := by
      rcases h with h | h <;> rw [h] <;> exact ⟨by decide, by decide, by decide⟩
    simp [sendGoldenSignalAlert, hne]
  · intro hsent
    by_cases hallow : params.type ≠ TgType.GOLDEN ∧ params.type ≠ TgType.CONVERGENCE ∧
        params.type ≠ TgType.EXIT
    · rw [sendGoldenSignalAlert, if_pos hallow] at hsent
      simp at hsent
    · rcases Decidable.not_and_iff_or_not.mp hallow with h | h
      · exact Or.inl (Decidable.not_not.mp h)
      · rcases Decidable.not_and_iff_or_not.mp h with h2 | h2
        · exact Or.inr (Or.inl (Decidable.not_not.mp h2))
        · exact Or.inr (Or.inr (Decidable.not_not.mp h2))

/-- Witness for the amended C7: a MOMENTUM request is rejected outright and a
delivered request has an allow-listed kind. -/
theorem C7_witness :
    sendGoldenSignalAlert
        { c7Params with type := TgType.MOMENTUM } c7Config (fun _ => true) =
      { sent := false, chats := [], marked := none } :=
  (C7_amended_allow_list { c7Params with type := TgType.MOMENTUM } c7Config
    (fun _ => true)).1 (Or.inl rfl)

/-- Membership after a set add. -/
lemma mem_addSet_iff (l : List String) (x y : String) :
    y ∈ addSet l x ↔ y ∈ l ∨ y = x := by
  unfold addSet
  by_cases h : x ∈ l
  · simp only [h, if_true]
    constructor
    · exact Or.inl
    · rintro (hy | rfl)
      · exact hy
      · exact h
  · simp [h]

/-- Membership after a set delete. -/
lemma mem_delSet_iff (l : List String) (x y : String) :
    y ∈ delSet l x ↔ y ∈ l ∧ y ≠ x := by
  simp [delSet, List.mem_filter]

/-- The dedup state produced by one signal step does not depend on the
delivery oracle or on the dispatch log so far. -/
lemma processSignal_fst_eq (o1 o2 : String → BuyType → Bool)
    (st : AlertState) (d1 d2 : List (String × BuyType × Bool)) (sig : BuySignal) :
    (processSignal o1 (st, d1) sig).1 = (processSignal o2 (st, d2) sig).1 := by
  cases h : sig.type
  case GOLDEN =>
    simp only [processSignal, h]
    by_cases hm : sig.ticker.symbol ∈ st.alerted <;> simp [hm]
  case EXIT =>
    simp only [processSignal, h]
    by_cases hm : sig.ticker.symbol ∈ st.exitAlerted <;> simp [hm]
  case MOMENTUM => simp [processSignal, h]
  case SUPPORT => simp [processSignal, h]

/-- The dedup state after the whole loop does not depend on the oracle. -/
lemma foldl_processSignal_fst (o1 o2 : String → BuyType → Bool) :
    ∀ (sigs : List BuySignal) (st : AlertState)
      (d1 d2 : List (String × BuyType × Bool)),
      (sigs.foldl (processSignal o1) (st, d1)).1 =
        (sigs.foldl (processSignal o2) (st, d2)).1
  | [], _, _, _ => rfl
  | sig :: sigs, st, d1, d2 => by
      simp only [List.foldl_cons]
      have h1 : processSignal o1 (st, d1) sig =
          ((processSignal o1 (st, d1) sig).1, (processSignal o1 (st, d1) sig).2) := rfl
      have h2 : processSignal o2 (st, d2) sig =
          ((processSignal o2 (st, d2) sig).1, (processSignal o2 (st, d2) sig).2) := rfl
      rw [h1, h2, processSignal_fst_eq o1 o2 st d1 d2 sig]
      exact foldl_processSignal_fst o1 o2 sigs _ _ _

/-- Counterexample to claim C5: with a delivery oracle that always fails,
the first cycle dispatches the GOLDEN alert for A, still records A in the
dedup set, and a second cycle with the same signal dispatches nothing: the
failed delivery is not retried. -/
theorem C5_counterexample :
    (alertCycle true (fun _ _ => false) [goldenSigA]
        { alerted := [], exitAlerted := [] }).2 =
      [(r"A", BuyType.GOLDEN, false)] ∧
    "A" ∈ (alertCycle true (fun _ _ => false) [goldenSigA]
        { alerted := [], exitAlerted := [] }).1.alerted ∧
    (alertCycle true (fun _ _ => false) [goldenSigA]
        (alertCycle true (fun _ _ => false) [goldenSigA]
          { alerted := [], exitAlerted := [] }).1).2 = [] := by
  refine ⟨?_, ?_, ?_⟩ <;> decide

/-- Claim C5 as amended: the per-occurrence in-memory dedup state of the
alert effect is updated unconditionally when a dispatch is attempted: it is
identical under any two delivery oracles, so a failed delivery is not
retried while the symbol keeps its classification. Only the per-day mark of
the telegram service (markAlerted) is recorded on success: a recorded mark
implies the dispatch succeeded. -/
theorem C5_amended_dedup_vs_delivery :
    (∀ (enabled : Bool) (o1 o2 : String → BuyType → Bool)
        (signals : List BuySignal) (st : AlertState),
      (alertCycle enabled o1 signals st).1 = (alertCycle enabled o2 signals st).1) ∧
    (∀ (params : AlertParams) (config : TelegramConfig)
        (transport : String → Bool),
      (sendGoldenSignalAlert params config transport).marked.isSome = true →
        (sendGoldenSignalAlert params config transport).sent = true) := by
  constructor
  · intro enabled o1 o2 signals st
    cases enabled
    · rfl
    · simp only [alertCycle, if_true]
      rw [foldl_processSignal_fst o1 o2 signals st [] []]
  · intro params config transport h
    unfold sendGoldenSignalAlert at h ⊢
    by_cases h1 : params.type ≠ TgType.GOLDEN ∧ params.type ≠ TgType.CONVERGENCE ∧
        params.type ≠ TgType.EXIT
    · rw [if_pos h1] at h
      simp at h
    · by_cases h2 : ¬config.enabled ∨ config.botToken = "" ∨ config.chatId = ""
      · rw [if_neg h1, if_pos h2] at h
        simp at h
      · rw [if_neg h1, if_neg h2] at h ⊢
        simp only at h ⊢
        by_cases hr : (sendTelegramMessage config transport).1
        · simp [hr]
        · simp [hr] at h

/-- Witness for the amended C5: a delivered GOLDEN alert has its per-day
mark recorded, and the recorded mark certifies the success flag. -/
theorem C5_witness :
    (sendGoldenSignalAlert { c7Params with type := TgType.GOLDEN } c7Config
        (fun _ => true)).sent = true :=
  C5_amended_dedup_vs_delivery.2 { c7Params with type := TgType.GOLDEN }
    c7Config (fun _ => true) (by decide)

/-- Absence from the alerted set is preserved by the loop when the symbol
has no GOLDEN signal in the processed list. -/
lemma notMem_alerted_preserved (o : String → BuyType → Bool) (s : String) :
    ∀ (sigs : List BuySignal) (st : AlertState)
      (d : List (String × BuyType × Bool)),
      s ∉ st.alerted →
      (∀ x ∈ sigs, x.ticker.symbol = s → x.type ≠ BuyType.GOLDEN) →
      s ∉ (sigs.foldl (processSignal o) (st, d)).1.alerted
  | [], _, _, h, _ => h
  | sig :: sigs, st, d, h, hno => by
      simp only [List.foldl_cons]
      have hstep : s ∉ (processSignal o (st, d) sig).1.alerted := by
        cases ht : sig.type
        case GOLDEN =>
          have hsym : sig.ticker.symbol ≠ s := by
            intro he
            exact (hno sig (List.mem_cons_self sig sigs) he) ht
          simp only [processSignal, ht]
          by_cases hm : sig.ticker.symbol ∈ st.alerted
          · simpa [hm] using h
          · simp only [hm, if_false]
            intro hmem
            rcases (mem_addSet_iff _ _ _).mp hmem with h1 | h1
            · exact h h1
            · exact hsym h1.symm
        case EXIT =>
          simp only [processSignal, ht]
          by_cases hm : sig.ticker.symbol ∈ st.exitAlerted
          · simpa [hm] using h
          · simp only [hm, if_false]
            intro hmem
            exact h ((mem_delSet_iff _ _ _).mp hmem).1
        case MOMENTUM =>
          simp only [processSignal, ht]
          intro hmem
          exact h ((mem_delSet_iff _ _ _).mp hmem).1
        case SUPPORT =>
          simp only [processSignal, ht]
          intro hmem
          exact h ((mem_delSet_iff _ _ _).mp hmem).1
      have e : processSignal o (st, d) sig =
          ((processSignal o (st, d) sig).1, (processSignal o (st, d) sig).2) := rfl
      rw [e]
      exact notMem_alerted_preserved o s sigs _ _ hstep
        (fun x hx => hno x (List.mem_cons_of_mem sig hx))

/-- Splitting a golden count over an appended log. -/
lemma countGolden_append (s : String) (d1 d2 : List (String × BuyType × Bool)) :
    countGoldenFor s (d1 ++ d2) = countGoldenFor s d1 + countGoldenFor s d2 := by
  simp [countGoldenFor, List.filter_append]

/-- The loop adds no GOLDEN dispatch for a symbol that has no GOLDEN signal
in the processed list. -/
lemma countGolden_no_golden (o : String → BuyType → Bool) (s : String) :
    ∀ (sigs : List BuySignal) (st : AlertState)
      (d : List (String × BuyType × Bool)),
      (∀ x ∈ sigs, x.ticker.symbol = s → x.type ≠ BuyType.GOLDEN) →
      countGoldenFor s (sigs.foldl (processSignal o) (st, d)).2 = countGoldenFor s d
  | [], _, _, _ => rfl
  | sig :: sigs, st, d, hno => by
      simp only [List.foldl_cons]
      have e : processSignal o (st, d) sig =
          ((processSignal o (st, d) sig).1, (processSignal o (st, d) sig).2) := rfl
      rw [e, countGolden_no_golden o s sigs _ _
        (fun x hx => hno x (List.mem_cons_of_mem sig hx))]
      cases ht : sig.type
      case GOLDEN =>
        have hsym : sig.ticker.symbol ≠ s := by
          intro he
          exact (hno sig (List.mem_cons_self sig sigs) he) ht
        simp only [processSignal, ht]
        by_cases hm : sig.ticker.symbol ∈ st.alerted
        · simp [hm]
        · simp [hm, countGolden_append, countGoldenFor, hsym]
      case EXIT =>
        simp only [processSignal, ht]
        by_cases hm : sig.ticker.symbol ∈ st.exitAlerted
        · simp [hm]
        · simp [hm, countGolden_append, countGoldenFor]
      case MOMENTUM => simp [processSignal, ht]
      case SUPPORT => simp [processSignal, ht]

/-- If a symbol with no GOLDEN signal in the list, starting outside the exit
set, is still in the alerted set after the loop, then no signal in the list
mentioned the symbol at all (the first mention would have removed it). -/
lemma alerted_survivor_no_mention (o : String → BuyType → Bool) (s : String) :
    ∀ (sigs : List BuySignal) (st : AlertState)
      (d : List (String × BuyType × Bool)),
      (∀ x ∈ sigs, x.ticker.symbol = s → x.type ≠ BuyType.GOLDEN) →
      s ∉ st.exitAlerted →
      s ∈ (sigs.foldl (processSignal o) (st, d)).1.alerted →
      ∀ x ∈ sigs, x.ticker.symbol ≠ s
  | [], _, _, _, _, _ => fun x hx => absurd hx (List.not_mem_nil x)
  | sig :: sigs, st, d, hno, hexit, hmem => by
      have e : processSignal o (st, d) sig =
          ((processSignal o (st, d) sig).1, (processSignal o (st, d) sig).2) := rfl
      rw [List.foldl_cons, e] at hmem
      by_cases hsym : sig.ticker.symbol = s
      · exfalso
        have ht : sig.type ≠ BuyType.GOLDEN :=
          hno sig (List.mem_cons_self sig sigs) hsym
        have hstep : s ∉ (processSignal o (st, d) sig).1.alerted := by
          cases htype : sig.type
          case GOLDEN => exact absurd htype ht
          case EXIT =>
            have hm : sig.ticker.symbol ∉ st.exitAlerted := by
              rw [hsym]
              exact hexit
            simp only [processSignal, htype, hm, if_false]
            intro hin
            exact ((mem_delSet_iff _ _ _).mp hin).2 hsym.symm
          case MOMENTUM =>
            simp only [processSignal, htype]
            intro hin
            exact ((mem_delSet_iff _ _ _).mp hin).2 hsym.symm
          case SUPPORT =>
            simp only [processSignal, htype]
            intro hin
            exact ((mem_delSet_iff _ _ _).mp hin).2 hsym.symm
        exact notMem_alerted_preserved o s sigs _ _ hstep
          (fun x hx => hno x (List.mem_cons_of_mem sig hx)) hmem
      · have hexit2 : s ∉ (processSignal o (st, d) sig).1.exitAlerted := by
          cases htype : sig.type
          case GOLDEN =>
            simp only [processSignal, htype]
            by_cases hm : sig.ticker.symbol ∈ st.alerted
            · simpa [hm] using hexit
            · simp only [hm, if_false]
              intro hin
              exact hexit ((mem_delSet_iff _ _ _).mp hin).1
          case EXIT =>
            simp only [processSignal, htype]
            by_cases hm : sig.ticker.symbol ∈ st.exitAlerted
            · simpa [hm] using hexit
            · simp only [hm, if_false]
              intro hin
              rcases (mem_addSet_iff _ _ _).mp hin with h1 | h1
              · exact hexit h1
              · exact hsym h1.symm
          case MOMENTUM => simpa [processSignal, htype] using hexit
          case SUPPORT => simpa [processSignal, htype] using hexit
        intro x hx
        rcases List.mem_cons.mp hx with h1 | h1
        · rw [h1]
          exact hsym
        · exact alerted_survivor_no_mention o s sigs _ _
            (fun x hx2 => hno x (List.mem_cons_of_mem sig hx2)) hexit2 hmem x h1

/-- After adding a fresh symbol, the cleanup filter to that symbol alone
keeps exactly it. -/
lemma addSet_filter_singleton (l : List String) (s : String) (h : s ∉ l) :
    (addSet l s).filter (fun x => decide (x ∈ [s])) = [s] := by
  unfold addSet
  rw [if_neg h, List.filter_append]
  have h1 : l.filter (fun x => decide (x ∈ [s])) = [] := by
    rw [List.filter_eq_nil_iff]
    intro a ha
    simp only [List.mem_singleton, decide_eq_true_eq]
    intro he
    exact h (he ▸ ha)
  rw [h1]
  simp

/-- After deleting a symbol, the cleanup filter to that symbol alone keeps
nothing. -/
lemma delSet_filter_singleton (l : List String) (s : String) :
    (delSet l s).filter (fun x => decide (x ∈ [s])) = [] := by
  rw [List.filter_eq_nil_iff]
  intro a ha
  simp only [List.mem_singleton, decide_eq_true_eq]
  intro he
  exact ((mem_delSet_iff _ _ _).mp ha).2 he

/-- A cycle over just one fresh GOLDEN signal dispatches it, leaving the
dedup state with exactly that symbol marked. -/
lemma alertCycle_golden_fresh (orc : String → BuyType → Bool) (g : BuySignal)
    (st : AlertState) (hg : g.type = BuyType.GOLDEN)
    (h0 : g.ticker.symbol ∉ st.alerted) :
    alertCycle true orc [g] st =
      ({ alerted := [g.ticker.symbol], exitAlerted := [] },
       [(g.ticker.symbol, BuyType.GOLDEN, orc g.ticker.symbol BuyType.GOLDEN)]) := by
  simp only [alertCycle, if_true, List.map_cons, List.map_nil, List.foldl_cons,
    List.foldl_nil, processSignal, hg, h0, if_false]
  rw [addSet_filter_singleton st.alerted g.ticker.symbol h0,
    delSet_filter_singleton st.exitAlerted g.ticker.symbol]
  simp

/-- A cycle over just one GOLDEN signal whose symbol is already marked
dispatches nothing and keeps the state. -/
lemma alertCycle_golden_skip (orc : String → BuyType → Bool) (g : BuySignal)
    (hg : g.type = BuyType.GOLDEN) :
    alertCycle true orc [g] { alerted := [g.ticker.symbol], exitAlerted := [] } =
      ({ alerted := [g.ticker.symbol], exitAlerted := [] }, []) := by
  simp [alertCycle, processSignal, hg]

/-- Claim C6: with alerting enabled, a symbol whose signal is GOLDEN in
three consecutive cycles produces exactly one GOLDEN notification for that
symbol; after any intermediate cycle in which the symbol is not classified
GOLDEN (absent, or any other kind), a fourth GOLDEN cycle produces exactly
one further GOLDEN notification for it. Notifications are counted as the
GOLDEN-kind dispatches for the symbol; an EXIT reclassification in the
intermediate cycle may additionally dispatch an EXIT-kind alert, which is a
different symbol+kind occurrence. -/
theorem C6_dedup_regolden (g : BuySignal) (mid : List BuySignal)
    (orc : String → BuyType → Bool) (st0 : AlertState)
    (hg : g.type = BuyType.GOLDEN)
    (h0 : g.ticker.symbol ∉ st0.alerted)
    (hmid : ∀ x ∈ mid, x.ticker.symbol = g.ticker.symbol →
      x.type ≠ BuyType.GOLDEN) :
    countGoldenFor g.ticker.symbol (fiveCycleTrace orc g mid st0).1 = 1 ∧
    countGoldenFor g.ticker.symbol (fiveCycleTrace orc g mid st0).2 = 1 := by
  have hmid2 : ∀ x ∈ mid, x.ticker.symbol = g.ticker.symbol →
      x.type ≠ BuyType.GOLDEN := hmid
  unfold fiveCycleTrace
  rw [alertCycle_golden_fresh orc g st0 hg h0]
  simp only
  rw [alertCycle_golden_skip orc g hg]
  simp only
  rw [alertCycle_golden_skip orc g hg]
  simp only
  constructor
  · simp [countGolden_append, countGoldenFor]
  · -- the mid cycle and the regolden cycle
    have hc4log : countGoldenFor g.ticker.symbol
        (alertCycle true orc mid { alerted := [g.ticker.symbol], exitAlerted := [] }).2 = 0 := by
      simp only [alertCycle, if_true]
      exact countGolden_no_golden orc g.ticker.symbol mid _ [] hmid2
    have hc4state : g.ticker.symbol ∉
        (alertCycle true orc mid { alerted := [g.ticker.symbol], exitAlerted := [] }).1.alerted := by
      simp only [alertCycle, if_true]
      intro hmem
      rw [List.mem_filter] at hmem
      obtain ⟨hin, hact⟩ := hmem
      rw [decide_eq_true_eq] at hact
      obtain ⟨x, hx, hxs⟩ := List.mem_map.mp hact
      have hnone := alerted_survivor_no_mention orc g.ticker.symbol mid
        { alerted := [g.ticker.symbol], exitAlerted := [] } [] hmid2
        (List.not_mem_nil g.ticker.symbol) hin
      exact hnone x hx hxs
    rw [countGolden_append, hc4log,
      alertCycle_golden_fresh orc g _ hg hc4state]
    simp [countGoldenFor]

/-- Witness for C6: symbol A, GOLDEN in cycles 1 to 3, absent in cycle 4,
GOLDEN again in cycle 5, with an always-accepting transport: one GOLDEN
dispatch in the first three cycles and one in the last two. -/
theorem C6_witness :
    countGoldenFor goldenSigA.ticker.symbol
        (fiveCycleTrace (fun _ _ => true) goldenSigA []
          { alerted := [], exitAlerted := [] }).1 = 1 ∧
    countGoldenFor goldenSigA.ticker.symbol
        (fiveCycleTrace (fun _ _ => true) goldenSigA []
          { alerted := [], exitAlerted := [] }).2 = 1 :=
  C6_dedup_regolden goldenSigA [] (fun _ _ => true)
    { alerted := [], exitAlerted := [] } rfl (by decide)
    (fun x hx => absurd hx (List.not_mem_nil x))

/-- Claim C8: every entry of every ledger view after a reconciliation, of
the persisted record, and of the list loaded on cold start is younger than
the 24-hour retention window; entries at or beyond the window never appear. -/
theorem C8_expiry_purge (signals : List BuySignal) (tickers : List CexTicker)
    (now : Int) (prev : List TrackedGolden) (stats0 : GoldenStats)
    (stored : Option (List TrackedGolden)) :
    (∀ t ∈ (reconcileTracker signals tickers now prev stats0).entries,
      now - t.signalTime < TRACKER_EXPIRY_MS) ∧
    (∀ t ∈ (reconcileTracker signals tickers now prev stats0).persisted,
      now - t.signalTime < TRACKER_EXPIRY_MS) ∧
    (∀ t ∈ loadTrackedGoldens stored now,
      now - t.signalTime < TRACKER_EXPIRY_MS) := by
  refine ⟨?_, ?_, ?_⟩
  · intro t ht
    simp only [reconcileTracker] at ht
    rw [List.mem_filter] at ht
    exact of_decide_eq_true ht.2
  · intro t ht
    simp only [reconcileTracker, saveTrackedGoldens] at ht
    rw [List.mem_filter] at ht
    exact of_decide_eq_true ht.2
  · intro t ht
    simp only [loadTrackedGoldens] at ht
    rw [List.mem_filter] at ht
    exact of_decide_eq_true ht.2

/-- Witness for C8: a fresh entry at age 500 ms sits in the reconciled view,
and the theorem certifies it is inside the retention window. -/
theorem C8_witness : (1000 : Int) - c8Entry.signalTime < TRACKER_EXPIRY_MS :=
  (C8_expiry_purge [] [] 1000 [c8Entry] gstats0 none).1 c8Entry (by decide)

/-- Membership is preserved by replaceFirst when the entry has a different
symbol from the replaced one. -/
lemma mem_replaceFirst_of_symbol_ne (s : String) (t2 t : TrackedGolden) :
    ∀ l : List TrackedGolden, t ∈ l → t.symbol ≠ s → t ∈ replaceFirst l s t2
  | [], ht, _ => absurd ht (List.not_mem_nil t)
  | u :: us, ht, hne => by
      unfold replaceFirst
      rcases List.mem_cons.mp ht with h | h
      · rw [if_neg]
        · rw [h]
          exact List.mem_cons_self u _
        · rw [← h]
          exact hne
      · by_cases hu : u.symbol = s
        · rw [if_pos hu]
          exact List.mem_cons_of_mem t2 h
        · rw [if_neg hu]
          exact List.mem_cons_of_mem u (mem_replaceFirst_of_symbol_ne s t2 t us h hne)

/-- Membership is preserved by replaceFirst when the found first match is a
different entry. -/
lemma mem_replaceFirst_of_find_ne (s : String) (t2 t e : TrackedGolden) :
    ∀ l : List TrackedGolden, t ∈ l →
      l.find? (fun x => decide (x.symbol = s)) = some e → e ≠ t →
      t ∈ replaceFirst l s t2
  | [], ht, _, _ => absurd ht (List.not_mem_nil t)
  | u :: us, ht, hfind, hne => by
      unfold replaceFirst
      by_cases hu : u.symbol = s
      · rw [if_pos hu]
        rw [List.find?_cons_of_pos _ (by simpa using hu)] at hfind
        have heu : e = u := by
          injection hfind with h
          exact h.symm
        rcases List.mem_cons.mp ht with h | h
        · exfalso
          apply hne
          rw [heu, h]
        · exact List.mem_cons_of_mem t2 h
      · rw [if_neg hu]
        rw [List.find?_cons_of_neg _ (by simpa using hu)] at hfind
        rcases List.mem_cons.mp ht with h | h
        · rw [h]
          exact List.mem_cons_self u _
        · exact List.mem_cons_of_mem u
            (mem_replaceFirst_of_find_ne s t2 t e us h hfind hne)

/-- Step 1 of the tracker effect keeps a previously present entry in the
ledger when the entry is closed, or when no processed golden signal carries
its symbol. -/
lemma foldl_trackGoldenStep_mem (now : Int) (t : TrackedGolden) :
    ∀ (gsigs : List BuySignal) (l : List TrackedGolden) (stats : GoldenStats),
      (jsTruthyInt t.exitTime = true ∨
        ∀ sig ∈ gsigs, sig.ticker.symbol ≠ t.symbol) →
      t ∈ l → t ∈ (gsigs.foldl (trackGoldenStep now) (l, stats)).1
  | [], _, _, _, ht => ht
  | sig :: gsigs, l, stats, hcase, ht => by
      simp only [List.foldl_cons]
      have e : trackGoldenStep now (l, stats) sig =
          ((trackGoldenStep now (l, stats) sig).1,
           (trackGoldenStep now (l, stats) sig).2) := rfl
      rw [e]
      have hcase2 : jsTruthyInt t.exitTime = true ∨
          ∀ x ∈ gsigs, x.ticker.symbol ≠ t.symbol := by
        rcases hcase with hc | hc
        · exact Or.inl hc
        · exact Or.inr (fun x hx => hc x (List.mem_cons_of_mem sig hx))
      apply foldl_trackGoldenStep_mem now t gsigs _ _ hcase2
      unfold trackGoldenStep
      cases hf : l.find? (fun x => decide (x.symbol = sig.ticker.symbol)) with
      | none =>
          simp only [hf]
          exact List.mem_append_left _ ht
      | some ex =>
          simp only [hf]
          split
          · rcases hcase with hc | hc
            · apply mem_replaceFirst_of_find_ne _ _ t ex l ht hf
              intro he
              rename_i hguard
              rw [he, hc] at hguard
              exact absurd hguard.2 (by simp)
            · have hexsym : ex.symbol = sig.ticker.symbol := by
                have := List.find?_some hf
                simpa using this
              apply mem_replaceFirst_of_symbol_ne _ _ t l ht
              intro he
              exact (hc sig (List.mem_cons_self sig gsigs)) (by rw [← he])
          · exact ht

/-- A closed entry is a fixed point of the per-entry update. -/
lemma updateTrackedEntry_id_closed (gs : List String) (tickers : List CexTicker)
    (now : Int) (stats : GoldenStats) (t : TrackedGolden)
    (h : jsTruthyInt t.exitTime = true) :
    updateTrackedEntry gs tickers now stats t = (t, stats) := by
  simp [updateTrackedEntry, h]

/-- An entry whose symbol has no current ticker is a fixed point of the
per-entry update. -/
lemma updateTrackedEntry_id_noticker (gs : List String)
    (tickers : List CexTicker) (now : Int) (stats : GoldenStats)
    (t : TrackedGolden)
    (h : tickers.find? (fun tk => decide (tk.symbol = t.symbol)) = none) :
    updateTrackedEntry gs tickers now stats t = (t, stats) := by
  unfold updateTrackedEntry
  split
  · rfl
  · rw [h]

/-- Step 2 keeps every entry that is a fixed point of the per-entry update. -/
lemma updateAllTracked_mem (gs : List String) (tickers : List CexTicker)
    (now : Int) (t : TrackedGolden)
    (hfix : ∀ stats, updateTrackedEntry gs tickers now stats t = (t, stats)) :
    ∀ (l : List TrackedGolden) (stats : GoldenStats),
      t ∈ l → t ∈ (updateAllTracked gs tickers now l stats).1
  | [], _, ht => absurd ht (List.not_mem_nil t)
  | u :: us, stats, ht => by
      simp only [updateAllTracked]
      rcases List.mem_cons.mp ht with h | h
      · rw [← h, hfix stats]
        exact List.mem_cons_self t _
      · exact List.mem_cons_of_mem _
          (updateAllTracked_mem gs tickers now t hfix us _ h)

/-- Claim C10: a closed entry (truthy exitTime), and likewise any entry
whose symbol is absent from the current ticker feed, passes through a
reconciliation completely unchanged for as long as it is inside the
retention window, and is removed once at or beyond it. The signal list is
assumed to mention only symbols present in the ticker feed, which holds in
the component because signals are computed from the tickers. -/
theorem C10_frame_closed_or_missing (signals : List BuySignal)
    (tickers : List CexTicker) (now : Int) (prev : List TrackedGolden)
    (stats0 : GoldenStats) (t : TrackedGolden) (ht : t ∈ prev)
    (hsig : ∀ s ∈ signals, s.ticker.symbol ∈ tickers.map CexTicker.symbol)
    (hcase : jsTruthyInt t.exitTime = true ∨
      t.symbol ∉ tickers.map CexTicker.symbol) :
    (now - t.signalTime < TRACKER_EXPIRY_MS →
      t ∈ (reconcileTracker signals tickers now prev stats0).entries ∧
      t ∈ (reconcileTracker signals tickers now prev stats0).persisted) ∧
    (TRACKER_EXPIRY_MS ≤ now - t.signalTime →
      t ∉ (reconcileTracker signals tickers now prev stats0).entries ∧
      t ∉ (reconcileTracker signals tickers now prev stats0).persisted) := by
  have hstep1 : t ∈ ((signals.filter (fun s => decide (s.type = BuyType.GOLDEN))).foldl
      (trackGoldenStep now) (prev, stats0)).1 := by
    rcases hcase with hc | hc
    · exact foldl_trackGoldenStep_mem now t _ prev stats0 (Or.inl hc) ht
    · refine foldl_trackGoldenStep_mem now t _ prev stats0 (Or.inr ?_) ht
      intro sig hsigmem he
      have h2 := hsig sig (List.mem_of_mem_filter hsigmem)
      rw [he] at h2
      exact hc h2
  have hfix : ∀ stats, updateTrackedEntry
      ((signals.filter (fun s => decide (s.type = BuyType.GOLDEN))).map
        (fun s => s.ticker.symbol)) tickers now stats t = (t, stats) := by
    rcases hcase with hc | hc
    · exact fun stats => updateTrackedEntry_id_closed _ _ _ _ _ hc
    · intro stats
      apply updateTrackedEntry_id_noticker
      rw [List.find?_eq_none]
      intro tk htk
      simp only [decide_eq_true_eq]
      intro he
      exact hc (List.mem_map.mpr ⟨tk, htk, he⟩)
  have hr2 : t ∈ (updateAllTracked
      ((signals.filter (fun s => decide (s.type = BuyType.GOLDEN))).map
        (fun s => s.ticker.symbol)) tickers now
      ((signals.filter (fun s => decide (s.type = BuyType.GOLDEN))).foldl
        (trackGoldenStep now) (prev, stats0)).1
      ((signals.filter (fun s => decide (s.type = BuyType.GOLDEN))).foldl
        (trackGoldenStep now) (prev, stats0)).2).1 :=
    updateAllTracked_mem _ tickers now t hfix _ _ hstep1
  constructor
  · intro hage
    constructor
    · simp only [reconcileTracker]
      exact List.mem_filter.mpr ⟨hr2, by simpa using hage⟩
    · simp only [reconcileTracker, saveTrackedGoldens]
      exact List.mem_filter.mpr
        ⟨List.mem_filter.mpr ⟨hr2, by simpa using hage⟩, by simpa using hage⟩
  · intro hage
    constructor
    · intro hmem
      simp only [reconcileTracker] at hmem
      have h2 := (List.mem_filter.mp hmem).2
      rw [decide_eq_true_eq] at h2
      linarith
    · intro hmem
      simp only [reconcileTracker, saveTrackedGoldens] at hmem
      have h2 := (List.mem_filter.mp hmem).2
      rw [decide_eq_true_eq] at h2
      linarith

/-- Witness for C10: a closed entry inside the window passes a
reconciliation with empty signals and tickers unchanged. -/
theorem C10_witness :
    c10Entry ∈ (reconcileTracker [] [] 1000 [c10Entry] gstats0).entries ∧
    c10Entry ∈ (reconcileTracker [] [] 1000 [c10Entry] gstats0).persisted :=
  (C10_frame_closed_or_missing [] [] 1000 [c10Entry] gstats0 c10Entry
    (by decide) (fun s hs => absurd hs (List.not_mem_nil s))
    (Or.inl (by decide))).1 (by decide)

/-- Claim C1, evaluated at the failing input (code bug): an open entry with
entryPrice 100 against a current price of 104 (unrealized gain exactly 4) is
closed by the reconciliation with exitPrice 104, exitTime set and
realizedPnl 4 — but tpHit stays false and successCount is not incremented,
because the early return at part_001 line 1282 shadows the take-profit block
at lines 1302-1321 that would set them; at price 103.99 the entry stays open
as the claim states. -/
theorem C1_tp_close_behavior :
    (reconcileTracker [] [c1TickerHit] 1000 [c8Entry] gstats0).entries = [c1Closed] ∧
    (reconcileTracker [] [c1TickerHit] 1000 [c8Entry] gstats0).stats = gstats0 ∧
    c1Closed.exitPrice = some 104 ∧ c1Closed.exitTime = some 1000 ∧
    c1Closed.realizedPnl = some 4 ∧ c1Closed.tpHit = some false ∧
    (reconcileTracker [] [c1TickerMiss] 1000 [c8Entry] gstats0).entries = [c1Open] ∧
    c1Open.exitTime = none ∧ c1Open.stillActive = true := by
  have hhit : reconcileTracker [] [c1TickerHit] 1000 [c8Entry] gstats0 =
      { entries := [c1Closed], persisted := [c1Closed], stats := gstats0 } := by
    norm_num [reconcileTracker, updateAllTracked, updateTrackedEntry,
      trackGoldenStep, saveTrackedGoldens, jsTruthyInt, jsTruthyBool, c8Entry,
      c1TickerHit, aTicker, c2Ticker, gstats0, c1Closed, TRACKER_EXPIRY_MS,
      max_def]
  have hmiss : reconcileTracker [] [c1TickerMiss] 1000 [c8Entry] gstats0 =
      { entries := [c1Open], persisted := [c1Open], stats := gstats0 } := by
    norm_num [reconcileTracker, updateAllTracked, updateTrackedEntry,
      trackGoldenStep, saveTrackedGoldens, jsTruthyInt, jsTruthyBool, c8Entry,
      c1TickerMiss, aTicker, c2Ticker, gstats0, c1Open, TRACKER_EXPIRY_MS,
      max_def]
  refine ⟨by rw [hhit], by rw [hhit], rfl, rfl, rfl, rfl, by rw [hmiss], rfl, rfl⟩
